import Mathlib

/-!
Verification of the remip-example repository.

This file gives a shallow embedding, in Lean 4, of the parts of the
repository that the verified claims talk about:

* src/remip_example/chat_history.py  (event_text, events_to_messages)
* src/remip_example/app2.py          (AsyncIteratorBridge)
* src/remip_example/services.py      (AgentService)
* src/remip_example/agent.py         (build_agent, track_tool_calling)
* src/remip_example/app.py           (StreamWorker stream task)
* src/remip_example/utils.py         (wait_for_port, ensure_http_server,
                                      start_remip_mcp, get_mcp_toolset)
* src/remip_example/config.py        (constants)

Python machine-level features are embedded as follows: fallible code
returns Except (the error string names the Python exception), dict and
OrderedDict values become insertion-ordered association lists, random
UUIDs become a monotone counter (only freshness matters), threads and
async tasks become explicit interleaving parameters (an index at which a
flag is observed set) and thread-safe queues become the list of values
put into them, in order.
-/

namespace Remip

/-! ### chat_history.py -/

/-- A genai content part; text is None or a string (the Python code treats
empty strings as missing via truthiness). -/
structure CPart where
  text : Option String
deriving Repr, DecidableEq

/-- A genai content: a role and a list of parts. -/
structure CContent where
  role : Option String
  parts : List CPart
deriving Repr, DecidableEq

/-- An ADK event as consumed by chat_history.py: its content, its
invocation id (none models both a missing and a falsy id, which the
source merges with the expression
getattr(event, "invocationId", None) or getattr(event, "invocation_id", None))
and the partial flag. -/
structure CEvent where
  content : Option CContent
  invocationId : Option String
  isPartial : Bool
deriving Repr, DecidableEq

/-- event_text: concatenate the truthy part texts of the event content;
an absent content gives the empty string. -/
def event_text (e : CEvent) : String :=
  match e.content with
  | none => ""
  | some c =>
      String.join (c.parts.filterMap (fun p =>
        match p.text with
        | some t => if t == "" then none else some t
        | none => none))

/-- An entry of the partials OrderedDict: accumulated text and role
(the source always stores role "assistant"). -/
structure PEntry where
  text : String
  role : String
deriving Repr, DecidableEq

/-- The partials OrderedDict, as an insertion-ordered association list. -/
abbrev Partials := List (String × PEntry)

def pmember (k : String) (ps : Partials) : Bool :=
  ps.any (fun kv => kv.1 == k)

def plookup (k : String) (ps : Partials) : Option PEntry :=
  (ps.find? (fun kv => kv.1 == k)).map (fun kv => kv.2)

def pupdate (k : String) (f : PEntry → PEntry) (ps : Partials) : Partials :=
  ps.map (fun kv => if kv.1 == k then (kv.1, f kv.2) else kv)

def perase (k : String) (ps : Partials) : Partials :=
  ps.filter (fun kv => !(kv.1 == k))

/-- The loop state of events_to_messages: history, partials,
none_key_counter and last_none_key. -/
structure EMState where
  history : List (String × String)
  partials : Partials
  noneKeyCounter : Nat
  lastNoneKey : Option String
deriving Repr, DecidableEq

def initEMState : EMState := ⟨[], [], 0, none⟩

/-- The synthetic key for events without an invocation id. -/
def noneKey (n : Nat) : String := "__none__:" ++ toString n

/-- Python str.strip(): remove leading and trailing whitespace. -/
def pyStrip (s : String) : String :=
  String.mk
    (((s.toList.dropWhile Char.isWhitespace).reverse.dropWhile
        Char.isWhitespace).reverse)

/-- The tail of the loop body, after the key has been chosen: a partial
event accumulates into partials[key] (raising KeyError when the key is
absent, as the subscript does in Python); a non-partial event pops the
accumulated entry (with an empty default), merges, strips and appends to
history when non-empty. -/
def applyEventBody (st : EMState) (key : String) (text : String)
    (isP : Bool) : Except String EMState :=
  if isP then
    if pmember key st.partials then
      Except.ok { st with
        partials := pupdate key (fun p => { p with text := p.text ++ text }) st.partials }
    else
      Except.error ("KeyError: " ++ key)
  else
    let accumulated := (plookup key st.partials).getD ⟨"", "assistant"⟩
    let partials1 := perase key st.partials
    let combined := pyStrip (accumulated.text ++ text)
    if combined == "" then
      Except.ok { st with partials := partials1 }
    else
      Except.ok { st with partials := partials1,
                          history := st.history ++ [(accumulated.role, combined)] }

/-- One iteration of the events_to_messages loop over one event. -/
def emStep (st : EMState) (e : CEvent) : Except String EMState :=
  let text := event_text e
  if text == "" then Except.ok st
  else
    let role : Option String := e.content.bind (fun c => c.role)
    if role == some "user" then
      Except.ok { st with history := st.history ++ [("user", text)],
                          lastNoneKey := none }
    else
      match e.invocationId with
      | some iid =>
          let partials1 :=
            if pmember iid st.partials then st.partials
            else st.partials ++ [(iid, ⟨"", "assistant"⟩)]
          applyEventBody { st with partials := partials1, lastNoneKey := none }
            iid text e.isPartial
      | none =>
          let needNew : Bool :=
            match st.lastNoneKey with
            | none => true
            | some k => !(pmember k st.partials)
          let counter1 := if needNew then st.noneKeyCounter + 1 else st.noneKeyCounter
          let partials1 :=
            if needNew then st.partials ++ [(noneKey st.noneKeyCounter, ⟨"", "assistant"⟩)]
            else st.partials
          let key :=
            match st.lastNoneKey with
            | some k => k
            | none => noneKey (counter1 - 1)
          applyEventBody
            { st with partials := partials1, noneKeyCounter := counter1,
                      lastNoneKey := some key }
            key text e.isPartial

/-- The final flush: remaining partials whose stripped text is non-empty
become messages, in insertion order. -/
def flushPartials (ps : Partials) : List (String × String) :=
  ps.filterMap (fun kv =>
    let t := pyStrip kv.2.text
    if t == "" then none else some (kv.2.role, t))

/-- events_to_messages from chat_history.py. The result is an Except so
that the KeyError raised by the subscript partials[key] is visible. -/
def events_to_messages (events : List CEvent) :
    Except String (List (String × String)) :=
  match events.foldlM emStep initEMState with
  | Except.error msg => Except.error msg
  | Except.ok st => Except.ok (st.history ++ flushPartials st.partials)

/-- An input on which events_to_messages crashes: an id-less non-partial
model event followed by an id-less partial model event. -/
def c6FailingEvents : List CEvent :=
  [ { content := some { role := some "model", parts := [{ text := some "a" }] },
      invocationId := none, isPartial := false },
    { content := some { role := some "model", parts := [{ text := some "b" }] },
      invocationId := none, isPartial := true } ]

/-! ### app2.py: AsyncIteratorBridge, and services.py: the output queues

A thread-safe queue is embedded as the list of values put into it, in
order.  The producer thread and the consumer generator are sequential
functions; the point at which the consumer-side stop request becomes
visible to the producer is an explicit parameter (stopCheck, indexed by
the iteration at which the producer tests the flag). -/

/-- A value placed on a queue: either a payload or the sentinel object. -/
inductive QItem (α : Type) where
  | item : α → QItem α
  | sentinel : QItem α
deriving Repr, DecidableEq

/-- The async-for part of AsyncIteratorBridge.produce: for each item the
stop flag is tested first (stopCheck idx is the value the producer reads
at iteration idx); when it is set the iterator is closed and the loop
breaks, otherwise the item is put on the queue. -/
def produceLoop {α : Type} (stopCheck : Nat → Bool) :
    List α → Nat → List (QItem α)
  | [], _ => []
  | x :: rest, idx =>
      if stopCheck idx then []
      else QItem.item x :: produceLoop stopCheck rest (idx + 1)

/-- The items the underlying async iterator yields before completing or,
when raiseAt = some k, before raising at the k-th pull. -/
def iterResults {α : Type} (items : List α) (raiseAt : Option Nat) : List α :=
  match raiseAt with
  | none => items
  | some k => items.take k

/-- AsyncIteratorBridge.produce: iterate the source, forwarding items to
the queue; any exception is swallowed; the finally block closes the
iterator and always puts the sentinel last. -/
def produce {α : Type} (items : List α) (stopCheck : Nat → Bool)
    (raiseAt : Option Nat) : List (QItem α) :=
  produceLoop stopCheck (iterResults items raiseAt) 0 ++ [QItem.sentinel]

/-- The consumer loop shared by AsyncIteratorBridge.run: dequeue until
the sentinel is seen, yielding the payloads.  none models a consumer
that would block forever because the queue holds no sentinel. -/
def bridgeRunConsume {α : Type} : List (QItem α) → Option (List α)
  | [] => none
  | QItem.sentinel :: _ => some []
  | QItem.item x :: rest => (bridgeRunConsume rest).map (fun l => x :: l)

/-- AsyncIteratorBridge.run: start the producer thread and consume its
queue until the sentinel. -/
def bridgeRun {α : Type} (items : List α) (stopCheck : Nat → Bool)
    (raiseAt : Option Nat) : Option (List α) :=
  bridgeRunConsume (produce items stopCheck raiseAt)

/-- AgentService.stream_new_responses: blockingly dequeue events from the
session output queue, yielding them until the sentinel is dequeued. -/
def stream_new_responses {α : Type} : List (QItem α) → Option (List α)
  | [] => none
  | QItem.sentinel :: _ => some []
  | QItem.item x :: rest => (stream_new_responses rest).map (fun l => x :: l)

/-- The per-message part of AgentService.run_agent_task_per_session:
each processed message puts the events of its agent run on the output
queue followed by one sentinel. -/
def svcRunOutputs {α : Type} : List (List α) → List (QItem α)
  | [] => []
  | r :: rest => r.map QItem.item ++ QItem.sentinel :: svcRunOutputs rest

/-- The finally block of AgentService.run_agent_task_per_session.  The
local async_iterable is only bound once the first message has been
processed; when the block runs with it unbound, the reference
"if async_iterable is not None" raises UnboundLocalError and neither the
pending-item drain nor the final sentinel put is reached.  When it is
bound, the block drains one pending item if the queue is non-empty and
puts the sentinel.  (The queue list models the pending contents with no
concurrent consumer.) -/
def svcTaskFinalize {α : Type} (asyncIterableBound : Bool)
    (q : List (QItem α)) : Except String (List (QItem α)) :=
  if asyncIterableBound then
    let q1 := if q.isEmpty then q else q.tail
    Except.ok (q1 ++ [QItem.sentinel])
  else
    Except.error "UnboundLocalError: async_iterable"

/-- AgentService.run_agent_task_per_session, cancelled while awaiting
message number cancelAtMsg (0-indexed): the runs before that message
complete normally, the CancelledError is swallowed, then the finally
block runs; async_iterable is bound exactly when at least one message
was processed. -/
def run_agent_task_per_session {α : Type} (runs : List (List α))
    (cancelAtMsg : Nat) : Except String (List (QItem α)) :=
  svcTaskFinalize (cancelAtMsg != 0) (svcRunOutputs (runs.take cancelAtMsg))

/-! ### agent.py: build_agent and track_tool_calling -/

/-- The tools that appear in agent.py: the MCP toolset given to the
worker, and the ADK exit_loop tool plus the local ask wrapper given to
the mentor. -/
inductive ATool where
  | exitLoop
  | ask
  | mcpToolset
deriving Repr, DecidableEq

/-- The slice of the ADK ToolContext that exit_loop touches: the
escalation flag that ends a LoopAgent run. -/
structure ToolCtx where
  escalate : Bool
deriving Repr, DecidableEq

/-- Modelled from the spec: the third-party ADK exit_loop tool, by which
"the mentor signals exit"; it sets the escalation flag that ends the
loop. -/
def exit_loop (ctx : ToolCtx) : ToolCtx := { ctx with escalate := true }

/-- The ask tool defined inside build_agent: it delegates to exit_loop. -/
def ask (ctx : ToolCtx) : ToolCtx := exit_loop ctx

/-- The LlmAgent configuration fields that build_agent sets. -/
structure LlmAgentData where
  name : String
  description : String
  instruction : String
  tools : List ATool
  outputKey : String
  thinkingBudget : Nat
  includeContents : String
deriving Repr, DecidableEq

/-- An ADK agent as built by agent.py: a leaf LlmAgent or a LoopAgent
with a name, an ordered list of sub-agents and an iteration cap. -/
inductive AgentT where
  | llm (data : LlmAgentData)
  | loopAgent (name : String) (subAgents : List AgentT) (maxIterations : Nat)
deriving Repr

def REMIP_AGENT_MODEL : String := "gemini-2.5-pro"

/-- The prompt text from config.py; its content is presentation material
that no claim depends on, so it is kept abstract here. -/
def REMIP_AGENT_INSTRUCTION : String := "<REMIP_AGENT_INSTRUCTION prompt text>"

/-- The prompt text from config.py; kept abstract as above. -/
def MENTOR_AGENT_INSTRUCTION : String := "<MENTOR_AGENT_INSTRUCTION prompt text>"

/-- The worker agent that build_agent constructs. -/
def remip_agent (thinkingBudget : Nat) : LlmAgentData :=
  { name := "remip_agent"
    description := "Agent for mathematical optimization"
    instruction := REMIP_AGENT_INSTRUCTION
    tools := [ATool.mcpToolset]
    outputKey := "work_result"
    thinkingBudget := thinkingBudget
    includeContents := "default" }

/-- The mentor agent that build_agent constructs in agent mode. -/
def mentor_agent : LlmAgentData :=
  { name := "mentor_agent"
    description := "Agent to judge whether to continue"
    instruction := MENTOR_AGENT_INSTRUCTION
    tools := [ATool.exitLoop, ATool.ask]
    outputKey := "mentor_result"
    thinkingBudget := 1024
    includeContents := "none" }

/-- build_agent from agent.py: the bare worker when is_agent_mode is
false, otherwise the orchestrator LoopAgent over worker then mentor. -/
def build_agent (isAgentMode : Bool) (maxIterations : Nat)
    (thinkingBudget : Nat) : AgentT :=
  if !isAgentMode then AgentT.llm (remip_agent thinkingBudget)
  else
    AgentT.loopAgent "orchestrator"
      [AgentT.llm (remip_agent thinkingBudget), AgentT.llm mentor_agent]
      maxIterations

/-- Modelled from the spec: the third-party LoopAgent runtime, "a
wrapper that repeatedly invokes a worker agent and a mentor agent until
the mentor signals exit or an iteration cap is reached".  mentorExits i
says whether the mentor signals exit (escalates) during iteration i;
the function counts the iterations that run, starting the count at
iteration index i with fuel iterations remaining. -/
def loopIterAux (mentorExits : Nat → Bool) : Nat → Nat → Nat
  | 0, _ => 0
  | fuel + 1, i => if mentorExits i then 1 else 1 + loopIterAux mentorExits fuel (i + 1)

/-- Modelled from the spec, as loopIterAux: the number of worker-mentor
iterations a LoopAgent with the given cap runs. -/
def loopAgentIterations (maxIterations : Nat) (mentorExits : Nat → Bool) : Nat :=
  loopIterAux mentorExits maxIterations 0

/-- The index below the cap of the first iteration in which the mentor
signals exit, scanning fuel iterations from index i. -/
def firstExitBelow (mentorExits : Nat → Bool) : Nat → Nat → Option Nat
  | 0, _ => none
  | fuel + 1, i =>
      if mentorExits i then some i else firstExitBelow mentorExits fuel (i + 1)

/-- A Python value as it occurs in tool responses: enough structure for
the truthiness tests that track_tool_calling performs. -/
inductive PyLite where
  | pyBool (b : Bool)
  | pyStr (s : String)
  | pyInt (n : Int)
  | pyNone
deriving Repr, DecidableEq

/-- Python truthiness on PyLite. -/
def truthy : PyLite → Bool
  | PyLite.pyBool b => b
  | PyLite.pyStr s => !(s == "")
  | PyLite.pyInt n => !(n == 0)
  | PyLite.pyNone => false

/-- A tool response as track_tool_calling dispatches on it: None, a
Mapping (an association list of string keys), or a non-Mapping object of
which only the isError attribute is read (none models a missing
attribute, the getattr default False). -/
inductive ToolResp where
  | noneResp
  | mapping (entries : List (String × PyLite))
  | obj (isError : Option PyLite)
deriving Repr, DecidableEq

/-- Mapping key membership. -/
def mcontains (m : List (String × PyLite)) (k : String) : Bool :=
  m.any (fun kv => kv.1 == k)

/-- Mapping .get with a default. -/
def mgetD (m : List (String × PyLite)) (k : String) (d : PyLite) : PyLite :=
  ((m.find? (fun kv => kv.1 == k)).map (fun kv => kv.2)).getD d

/-- The success computation of track_tool_calling. -/
def successOf (r : ToolResp) : Bool :=
  match r with
  | ToolResp.noneResp => true
  | ToolResp.mapping m =>
      if mcontains m "isError" then !(truthy (mgetD m "isError" (PyLite.pyBool false)))
      else if truthy (mgetD m "error" PyLite.pyNone)
              || truthy (mgetD m "error_message" PyLite.pyNone) then false
      else true
  | ToolResp.obj isErr => !(truthy (isErr.getD (PyLite.pyBool false)))

/-- The argument truncation of track_tool_calling, applied to str(v). -/
def truncateValue (value : String) : String :=
  if value.length > 128 then value.take 128 ++ "..." else value

/-- A record appended to the tools_used state. -/
structure ToolRecord where
  agent : String
  tool : String
  args : List (String × String)
  success : Bool
deriving Repr, DecidableEq

/-- track_tool_calling from agent.py: the tools_used state before the
call (none when the key is absent, in which case it is set to []),
the stringified arguments, and the new state after the single append.
Argument values arrive already passed through str. -/
def track_tool_calling (agentName toolName : String)
    (args : List (String × String)) (toolsUsed : Option (List ToolRecord))
    (resp : ToolResp) : List ToolRecord :=
  let current := toolsUsed.getD []
  current ++
    [{ agent := agentName
       tool := toolName
       args := args.map (fun kv => (kv.1, truncateValue kv.2))
       success := successOf resp }]

/-! ### app.py: StreamWorker stream task

The out_q items are tagged tuples; an event is abstracted to the data
that the loop body of stream_task reads from it (the status payload
produced by build_status_payload with its state defaulting already
applied, the fragments produced by extract_event_fragments, and the
final-response flag).  The interrupt flag and the current stream id are
read once per event, just after the status payload is emitted; intr idx
and curId idx are the values those reads observe at event index idx. -/

/-- The event data the stream_task loop body consumes.  Empty strings
model absent text and thought fragments (the Python code tests them for
truthiness). -/
structure WEvent where
  statusState : Option String
  toolCalls : List String
  toolResponses : List String
  textChunk : String
  thoughtChunk : String
  isFinal : Bool
deriving Repr, DecidableEq

/-- A default WEvent (used only to state positions past a list end). -/
def wDefault : WEvent := ⟨none, [], [], "", "", false⟩

/-- An item put on StreamWorker.out_q. -/
inductive OutItem where
  | status (streamId : Nat) (state : String)
  | reset (streamId : Nat)
  | functionCall (streamId : Nat) (payload : String)
  | functionResponse (streamId : Nat) (payload : String)
  | chunk (streamId : Nat) (kind : String) (text : String)
  | thought (streamId : Nat) (kind : String) (text : String)
  | done (streamId : Nat)
  | errorItem (streamId : Nat) (message : String)
  | interrupted (streamId : Nat)
deriving Repr, DecidableEq

/-- The status item emitted for an event, when its payload is truthy. -/
def statusOut (sid : Nat) (e : WEvent) : List OutItem :=
  match e.statusState with
  | some s => [OutItem.status sid s]
  | none => []

/-- The non-status items the loop body emits for one event that passed
the interrupt check: function calls, function responses, then the text
chunk (kind final_chunk on a final response) and the thought chunk. -/
def streamEventOutputs (sid : Nat) (e : WEvent) : List OutItem :=
  e.toolCalls.map (OutItem.functionCall sid)
    ++ e.toolResponses.map (OutItem.functionResponse sid)
    ++ (if e.textChunk == "" then []
        else [OutItem.chunk sid (if e.isFinal then "final_chunk" else "chunk")
                e.textChunk])
    ++ (if e.thoughtChunk == "" then []
        else [OutItem.thought sid
                (if e.isFinal then "final_thought" else "thought")
                e.thoughtChunk])

/-- The async-for loop of stream_task: per event, emit the status item,
then test the interrupt flag and the current stream id; on interruption
close the generator (counted) and break with the interrupted flag set;
otherwise emit the event fragments and continue.  Returns the emitted
items, the interrupted flag and the number of aclose calls made. -/
def streamLoop (sid : Nat) (intr : Nat → Bool) (curId : Nat → Nat) :
    List WEvent → Nat → List OutItem × Bool × Nat
  | [], _ => ([], false, 0)
  | e :: rest, idx =>
      let so := statusOut sid e
      if intr idx || !(curId idx == sid) then
        (so, true, 1)
      else
        let out := streamEventOutputs sid e
        let t := streamLoop sid intr curId rest (idx + 1)
        (so ++ out ++ t.1, t.2.1, t.2.2)

/-- The result of one stream_task execution: the out_q items it put, in
order, and how often it closed the run_async generator. -/
structure StreamTaskResult where
  outs : List OutItem
  acloseCalls : Nat
deriving Repr, DecidableEq

/-- The prologue of stream_task: a handover_wait status when a previous
task is still running, the starting status, and the reset item. -/
def streamPre (sid : Nat) (hasPrevious : Bool) : List OutItem :=
  (if hasPrevious then [OutItem.status sid "handover_wait"] else [])
    ++ [OutItem.status sid "starting", OutItem.reset sid]

/-- StreamWorker.stream_task.  events are the items the run_async
generator yields; raisesAfter says whether iterating past them raises
(the except branch emits the error status and error item).  The finally
block closes the generator once more and, when the loop broke on the
interrupt check, emits the interrupted status followed by the
interrupted item as the last outputs. -/
def stream_task (sid : Nat) (events : List WEvent) (raisesAfter : Bool)
    (intr : Nat → Bool) (curId : Nat → Nat) (hasPrevious : Bool) :
    StreamTaskResult :=
  let r := streamLoop sid intr curId events 0
  let body := r.1
  let interruptedFlag := r.2.1
  let post :=
    if interruptedFlag then
      [OutItem.status sid "interrupted", OutItem.interrupted sid]
    else if raisesAfter then
      [OutItem.status sid "error", OutItem.errorItem sid "stream error"]
    else
      [OutItem.status sid "completed", OutItem.done sid]
  { outs := streamPre sid hasPrevious ++ body ++ post
    acloseCalls := r.2.2 + 1 }

/-! ### services.py: AgentService talk sessions and the producer loop

uuid4 is embedded as a monotone counter (session ids are Nat); the only
property the claims use is freshness. -/

/-- The TalkSession dataclass. -/
structure TalkSession where
  id : Nat
  userId : String
  agentMode : Bool
deriving Repr, DecidableEq

/-- A command on the AgentService command queue. -/
inductive SvcCommand where
  | createAdkSession (sessionId : Nat) (userId : String) (agentMode : Bool)
  | startSessionTask (sessionId : Nat) (userId : String) (agentMode : Bool)
  | terminate
deriving Repr, DecidableEq

/-- The AgentService state that create_talk_session and
list_talk_sessions touch: the per-user session dicts, the session ids
owning an output queue and a message queue, the command queue, and the
uuid counter. -/
structure AgentServiceState where
  sessions : List (String × List (Nat × TalkSession))
  outputQueues : List Nat
  messageQueues : List Nat
  commandQ : List SvcCommand
  nextUuid : Nat
deriving Repr, DecidableEq

/-- All registered session ids, over all users. -/
def allSessionIds (st : AgentServiceState) : List Nat :=
  st.sessions.flatMap (fun kv => kv.2.map (fun sv => sv.1))

/-- The uuid-counter invariant: every registered session id was drawn
below the counter. -/
def sessionIdsBound (st : AgentServiceState) : Prop :=
  ∀ s ∈ allSessionIds st, s < st.nextUuid

/-- The Python dict update of the nested sessions dict: when the user
key exists its per-user dict gains the entry at the end (key position
preserved), otherwise the user key is appended with a singleton dict. -/
def updateUserSessions (sessions : List (String × List (Nat × TalkSession)))
    (userId : String) (entry : Nat × TalkSession) :
    List (String × List (Nat × TalkSession)) :=
  match sessions with
  | [] => [(userId, [entry])]
  | kv :: rest =>
      if kv.1 == userId then (kv.1, kv.2 ++ [entry]) :: rest
      else kv :: updateUserSessions rest userId entry

/-- AgentService.create_talk_session: draw a fresh id, create the user
dict if needed, register the TalkSession, give the session an output
queue and a message queue, and enqueue create_adk_session then
START_SESSION_TASK.  Returns the new session id and the new state. -/
def create_talk_session (st : AgentServiceState) (userId : String)
    (isAgentMode : Bool) : Nat × AgentServiceState :=
  let sessionId := st.nextUuid
  let entry : Nat × TalkSession := (sessionId, ⟨sessionId, userId, isAgentMode⟩)
  let sessions1 := updateUserSessions st.sessions userId entry
  (sessionId,
   { sessions := sessions1
     outputQueues := st.outputQueues ++ [sessionId]
     messageQueues := st.messageQueues ++ [sessionId]
     commandQ := st.commandQ ++
       [SvcCommand.createAdkSession sessionId userId isAgentMode,
        SvcCommand.startSessionTask sessionId userId isAgentMode]
     nextUuid := st.nextUuid + 1 })

/-- The session ids registered for a user (the keys of the user dict,
in insertion order); the empty list for an unknown user. -/
def userSessionIds (st : AgentServiceState) (userId : String) : List Nat :=
  (((st.sessions.find? (fun kv => kv.1 == userId)).map
      (fun kv => kv.2)).getD []).map (fun sv => sv.1)

/-- AgentService.list_talk_sessions: the keys of the (possibly absent)
user dict, and the unchanged service state: the code after its return
statement never runs. -/
def list_talk_sessions (st : AgentServiceState) (userId : String) :
    List Nat × AgentServiceState :=
  (userSessionIds st userId, st)

/-- The methods the class body of AgentService defines.  add_message is
not among them: its def statement is nested inside list_talk_sessions
after the return statement and never executes. -/
def agentServiceClassMethods : List String :=
  ["__init__", "create_talk_session", "get_talk_session",
   "list_talk_sessions", "get_historical_events", "is_task_running",
   "stream_new_responses", "stop", "_runner", "_producer_loop",
   "_run_agent_task_per_session"]

/-- Python attribute lookup on an AgentService instance, restricted to
methods: none models the AttributeError raised for a missing name. -/
def agentServiceGetattr (name : String) : Option String :=
  if agentServiceClassMethods.contains name then some name else none

/-- The producer-loop state: the session ids with an active task, the
ADK sessions created so far, and the log of task starts. -/
structure ProducerState where
  activeTasks : List Nat
  adkSessions : List Nat
  startedTasks : List Nat
deriving Repr, DecidableEq

/-- One command dispatch of AgentService.producer_loop:
create_adk_session creates the ADK session; START_SESSION_TASK starts a
task only when the session has none yet, and otherwise does nothing. -/
def producerStep (ps : ProducerState) : SvcCommand → ProducerState
  | SvcCommand.createAdkSession sid _ _ =>
      { ps with adkSessions := ps.adkSessions ++ [sid] }
  | SvcCommand.startSessionTask sid _ _ =>
      if ps.activeTasks.contains sid then ps
      else { ps with activeTasks := ps.activeTasks ++ [sid],
                     startedTasks := ps.startedTasks ++ [sid] }
  | SvcCommand.terminate => ps

/-- AgentService.producer_loop: process the command queue front to back,
stopping at TERMINATE. -/
def producer_loop (ps : ProducerState) : List SvcCommand → ProducerState
  | [] => ps
  | SvcCommand.terminate :: _ => ps
  | c :: rest => producer_loop (producerStep ps c) rest

/-! ### services.py: get_historical_events over the session service -/

def APP_NAME : String := "remip"

/-- The third-party InMemorySessionService, abstracted to the map it
stores: (app_name, user_id, session_id) to the session event list. -/
abbrev SessionService (α : Type) := List ((String × String × String) × List α)

/-- session_service.get_session. -/
def get_session {α : Type} (svc : SessionService α)
    (app user sid : String) : Option (List α) :=
  (svc.find? (fun kv => kv.1 == (app, user, sid))).map (fun kv => kv.2)

/-- AgentService.get_historical_events: the stored event list when the
session service returns a session, the empty list when it returns
None. -/
def get_historical_events {α : Type} (svc : SessionService α)
    (userId sessionId : String) : List α :=
  match get_session svc APP_NAME userId sessionId with
  | some events => events
  | none => []

/-! ### utils.py and config.py: the MCP server bootstrap

Real time is embedded by poll ticks: the wait_for_port loop tests the
port once per interval until the deadline, so a 10 second timeout at a
0.1 second interval gives 100 polls.  listening t says whether the
spawned npx process is accepting connections at poll t. -/

def MCP_PORT : Nat := 3333

/-- The number of polls a 10.0 second timeout at the 0.1 second default
interval allows. -/
def timeoutTicks : Nat := 100

/-- The polling loop of wait_for_port, with fuel polls remaining and the
next poll happening at tick t. -/
def waitForPortAux (listening : Nat → Bool) : Nat → Nat → Bool
  | 0, _ => false
  | fuel + 1, t => if listening t then true else waitForPortAux listening fuel (t + 1)

/-- wait_for_port from utils.py: true exactly when the port starts
listening within the allowed polls. -/
def wait_for_port (listening : Nat → Bool) (ticks : Nat) : Bool :=
  waitForPortAux listening ticks 0

/-- ensure_http_server from utils.py: spawn the npx process, wait for
the port with the 10 second timeout, raise RuntimeError when it never
listens and return the port when it does. -/
def ensure_http_server (listening : Nat → Bool) (port : Nat) :
    Except String Nat :=
  if wait_for_port listening timeoutTicks then Except.ok port
  else
    Except.error ("RuntimeError: MCP HTTP server failed to start on port "
      ++ toString port)

/-- start_remip_mcp from utils.py: spawn the npx process on MCP_PORT,
wait for the port (the result is discarded) and return the port. -/
def start_remip_mcp (listening : Nat → Bool) : Nat :=
  let port := MCP_PORT
  let _ := wait_for_port listening timeoutTicks
  port

/-- The HTTP endpoint URL that get_mcp_toolset configures for a port. -/
def mcpToolsetUrl (port : Nat) : String :=
  "http://localhost:" ++ toString port ++ "/mcp/"

/-! ### Concrete inputs for the witness theorems -/

/-- An event carrying a status payload and a text chunk. -/
def wChunkEvent : WEvent :=
  { statusState := some "running", toolCalls := [], toolResponses := []
    textChunk := "hello", thoughtChunk := "", isFinal := false }

/-- A plain text event with no status payload. -/
def wPlainEvent : WEvent :=
  { statusState := none, toolCalls := [], toolResponses := []
    textChunk := "world", thoughtChunk := "", isFinal := true }

/-- An interrupt flag that the stream task observes set from its second
event on. -/
def c4Intr : Nat → Bool := fun i => decide (1 ≤ i)

/-- A current-stream-id that always equals the witness stream id 7. -/
def c4CurId : Nat → Nat := fun _ => 7

/-- A service state with one registered user owning one session. -/
def c5State : AgentServiceState :=
  { sessions := [("alice", [(0, ⟨0, "alice", true⟩)])]
    outputQueues := [0]
    messageQueues := [0]
    commandQ := []
    nextUuid := 1 }

/-- A session service holding one session with two events. -/
def c7Svc : SessionService Nat := [(("remip", "alice", "s1"), [10, 11])]

/-- A port that never starts listening. -/
def neverListening : Nat → Bool := fun _ => false

/-- A port that is listening from the third poll on. -/
def lateListening : Nat → Bool := fun t => decide (2 ≤ t)

/-! ## Helper lemmas -/

theorem produceLoop_falseCheck {α : Type} (items : List α) :
    ∀ idx, produceLoop (fun _ => false) items idx = items.map QItem.item := by
  induction items with
  | nil => intro idx; rfl
  | cons x rest ih => intro idx; simp [produceLoop, ih (idx + 1)]

theorem produceLoop_threshold {α : Type} (k : Nat) (items : List α) :
    ∀ idx, produceLoop (fun i => decide (k ≤ i)) items idx
      = (items.take (k - idx)).map QItem.item := by
  induction items with
  | nil => intro idx; simp [produceLoop]
  | cons x rest ih =>
      intro idx
      by_cases h : k ≤ idx
      · have hk : k - idx = 0 := Nat.sub_eq_zero_of_le h
        simp [produceLoop, h, hk]
      · have hlt : idx < k := Nat.lt_of_not_le h
        have hk : k - idx = (k - (idx + 1)) + 1 := by omega
        simp [produceLoop, h, hk, ih (idx + 1)]

theorem bridgeRunConsume_items_sentinel {α : Type} (l : List α)
    (rest : List (QItem α)) :
    bridgeRunConsume (l.map QItem.item ++ QItem.sentinel :: rest) = some l := by
  induction l with
  | nil => rfl
  | cons x xs ih => simp [bridgeRunConsume, ih]

theorem stream_new_responses_items_sentinel {α : Type} (l : List α)
    (rest : List (QItem α)) :
    stream_new_responses (l.map QItem.item ++ QItem.sentinel :: rest) = some l := by
  induction l with
  | nil => rfl
  | cons x xs ih => simp [stream_new_responses, ih]

theorem bridgeRunConsume_isSome_of_sentinel {α : Type} (l : List (QItem α)) :
    (bridgeRunConsume (l ++ [QItem.sentinel])).isSome = true := by
  induction l with
  | nil => rfl
  | cons x xs ih =>
      cases x with
      | sentinel => rfl
      | item a => simpa [bridgeRunConsume] using ih

theorem getLast?_append_singleton {α : Type} (l : List α) (a : α) :
    (l ++ [a]).getLast? = some a := by
  induction l with
  | nil => rfl
  | cons x xs ih =>
      cases xs with
      | nil => rfl
      | cons y ys =>
          rw [List.cons_append, List.cons_append, List.getLast?_cons_cons,
            ← List.cons_append]
          exact ih

theorem one_add_eq_add_one (n : Nat) : 1 + n = n + 1 := Nat.add_comm 1 n

theorem succ_sub_arith (i j : Nat) (hij : i + 1 ≤ j) :
    1 + (j + 1 - (i + 1)) = j + 1 - i := by omega

theorem one_add_le_succ (m n : Nat) (h : m ≤ n) : 1 + m ≤ n + 1 := by omega

theorem loopIterAux_le (f : Nat → Bool) :
    ∀ fuel i, loopIterAux f fuel i ≤ fuel := by
  intro fuel
  induction fuel with
  | zero => intro i; simp [loopIterAux]
  | succ n ih =>
      intro i
      by_cases h : f i
      · simp [loopIterAux, h]
      · have hle := ih (i + 1)
        have hstep : loopIterAux f (n + 1) i = 1 + loopIterAux f n (i + 1) := by
          simp [loopIterAux, h]
        rw [hstep]
        exact one_add_le_succ _ _ hle

theorem firstExitBelow_ge (f : Nat → Bool) :
    ∀ fuel i j, firstExitBelow f fuel i = some j → i ≤ j := by
  intro fuel
  induction fuel with
  | zero => intro i j h; simp [firstExitBelow] at h
  | succ n ih =>
      intro i j h
      by_cases hf : f i
      · simp [firstExitBelow, hf] at h
        omega
      · simp [firstExitBelow, hf] at h
        exact Nat.le_of_succ_le (ih (i + 1) j h)

theorem loopIterAux_eq_firstExit (f : Nat → Bool) :
    ∀ fuel i, loopIterAux f fuel i
      = match firstExitBelow f fuel i with
        | some j => j + 1 - i
        | none => fuel := by
  intro fuel
  induction fuel with
  | zero => intro i; simp [loopIterAux, firstExitBelow]
  | succ n ih =>
      intro i
      by_cases hf : f i
      · simp [loopIterAux, firstExitBelow, hf]
      · have h1 := ih (i + 1)
        have hstep : loopIterAux f (n + 1) i = 1 + loopIterAux f n (i + 1) := by
          simp [loopIterAux, hf]
        have hfb : firstExitBelow f (n + 1) i = firstExitBelow f n (i + 1) := by
          simp [firstExitBelow, hf]
        rw [hstep, hfb]
        cases hfe : firstExitBelow f n (i + 1) with
        | none =>
            rw [hfe] at h1
            simp only at h1
            simp only [h1]
            exact one_add_eq_add_one n
        | some j =>
            have hij := firstExitBelow_ge f n (i + 1) j hfe
            rw [hfe] at h1
            simp only at h1
            simp only [h1]
            exact succ_sub_arith i j hij

theorem statusOut_mem (sid : Nat) (e : WEvent) (x : OutItem)
    (hx : x ∈ statusOut sid e) : ∃ s, x = OutItem.status sid s := by
  unfold statusOut at hx
  cases hst : e.statusState with
  | none => rw [hst] at hx; simp at hx
  | some s =>
      rw [hst] at hx
      simp at hx
      exact ⟨s, hx⟩

theorem streamLoop_interrupt (sid : Nat) (intr : Nat → Bool) (curId : Nat → Nat) :
    ∀ (events : List WEvent) (k idx : Nat),
      k < events.length →
      (intr (idx + k) = true ∨ curId (idx + k) ≠ sid) →
      (∀ i, i < k → intr (idx + i) = false ∧ curId (idx + i) = sid) →
      streamLoop sid intr curId events idx
        = ((events.take k).flatMap
              (fun e => statusOut sid e ++ streamEventOutputs sid e)
            ++ statusOut sid (events.getD k wDefault), true, 1) := by
  intro events
  induction events with
  | nil => intro k idx hk htrig hbefore; simp at hk
  | cons e rest ih =>
      intro k idx hk htrig hbefore
      cases k with
      | zero =>
          rw [Nat.add_zero] at htrig
          have hcond : (intr idx || !(curId idx == sid)) = true := by
            rcases htrig with h | h
            · simp [h]
            · have hb : (curId idx == sid) = false := by
                simp [h]
              simp [hb]
          simp [streamLoop, hcond]
      | succ k2 =>
          have hno := hbefore 0 (Nat.succ_pos k2)
          rw [Nat.add_zero] at hno
          have hbeq : (curId idx == sid) = true := by simp [hno.2]
          have hcond : (intr idx || !(curId idx == sid)) = false := by
            simp [hno.1, hbeq]
          have htrig2 : intr ((idx + 1) + k2) = true ∨ curId ((idx + 1) + k2) ≠ sid := by
            have hsh : (idx + 1) + k2 = idx + (k2 + 1) := by omega
            rw [hsh]; exact htrig
          have hbefore2 : ∀ i, i < k2 →
              intr ((idx + 1) + i) = false ∧ curId ((idx + 1) + i) = sid := by
            intro i hi
            have hsh : (idx + 1) + i = idx + (i + 1) := by omega
            rw [hsh]
            exact hbefore (i + 1) (Nat.succ_lt_succ hi)
          have hk2 : k2 < rest.length := Nat.lt_of_succ_lt_succ (by simpa using hk)
          have hrec := ih k2 (idx + 1) hk2 htrig2 hbefore2
          simp only [streamLoop, hcond, Bool.false_eq_true, if_false, hrec]
          simp [List.flatMap_cons, List.append_assoc]

theorem find?_append_of_none {β : Type} (p : β → Bool) (l1 l2 : List β)
    (h : l1.find? p = none) : (l1 ++ l2).find? p = l2.find? p := by
  induction l1 with
  | nil => simp
  | cons x xs ih =>
      by_cases hx : p x
      · simp [List.find?_cons, hx] at h
      · simp only [List.find?_cons, hx] at h
        simp only [List.cons_append, List.find?_cons, hx]
        exact ih h

theorem find?_updateUserSessions_none
    (l : List (String × List (Nat × TalkSession))) (u : String)
    (entry : Nat × TalkSession)
    (h : l.find? (fun kv => kv.1 == u) = none) :
    (updateUserSessions l u entry).find? (fun kv => kv.1 == u)
      = some (u, [entry]) := by
  induction l with
  | nil => simp [updateUserSessions, List.find?_cons]
  | cons x xs ih =>
      by_cases hx : x.1 == u
      · simp [List.find?_cons, hx] at h
      · simp only [List.find?_cons, hx] at h
        simp only [updateUserSessions, hx, Bool.false_eq_true, if_false,
          List.find?_cons]
        exact ih h

theorem find?_updateUserSessions_some
    (l : List (String × List (Nat × TalkSession))) (u : String)
    (entry : Nat × TalkSession) (kv0 : String × List (Nat × TalkSession))
    (h : l.find? (fun kv => kv.1 == u) = some kv0) :
    (updateUserSessions l u entry).find? (fun kv => kv.1 == u)
      = some (kv0.1, kv0.2 ++ [entry]) := by
  induction l with
  | nil => simp [List.find?] at h
  | cons x xs ih =>
      by_cases hx : x.1 == u
      · simp only [List.find?_cons, hx] at h
        simp only [Option.some.injEq] at h
        subst h
        simp [updateUserSessions, hx, List.find?_cons]
      · simp only [List.find?_cons, hx] at h
        simp only [updateUserSessions, hx, Bool.false_eq_true, if_false,
          List.find?_cons]
        exact ih h

theorem userSessionIds_create (st : AgentServiceState) (u : String)
    (mode : Bool) :
    userSessionIds (create_talk_session st u mode).2 u
      = userSessionIds st u ++ [st.nextUuid] := by
  unfold create_talk_session userSessionIds
  cases hf : st.sessions.find? (fun kv => kv.1 == u) with
  | none =>
      rw [find?_updateUserSessions_none st.sessions u _ hf]
      simp
  | some kv0 =>
      rw [find?_updateUserSessions_some st.sessions u _ kv0 hf]
      simp

theorem mem_flatMap_updateUserSessions
    (l : List (String × List (Nat × TalkSession))) (u : String)
    (entry : Nat × TalkSession) (s : Nat)
    (hs : s ∈ (updateUserSessions l u entry).flatMap
        (fun kv => kv.2.map (fun sv => sv.1))) :
    s ∈ l.flatMap (fun kv => kv.2.map (fun sv => sv.1)) ∨ s = entry.1 := by
  induction l with
  | nil =>
      simp [updateUserSessions] at hs
      exact Or.inr hs
  | cons x xs ih =>
      by_cases hx : x.1 == u
      · simp only [updateUserSessions, hx, if_true] at hs
        rw [List.flatMap_cons] at hs
        rcases List.mem_append.mp hs with h1 | h1
        · simp only [List.map_append, List.map_cons, List.map_nil] at h1
          rcases List.mem_append.mp h1 with h2 | h2
          · exact Or.inl (by
              rw [List.flatMap_cons]
              exact List.mem_append.mpr (Or.inl h2))
          · simp at h2
            exact Or.inr h2
        · exact Or.inl (by
            rw [List.flatMap_cons]
            exact List.mem_append.mpr (Or.inr h1))
      · simp only [updateUserSessions, hx, Bool.false_eq_true, if_false] at hs
        rw [List.flatMap_cons] at hs
        rcases List.mem_append.mp hs with h1 | h1
        · exact Or.inl (by
            rw [List.flatMap_cons]
            exact List.mem_append.mpr (Or.inl h1))
        · rcases ih h1 with h2 | h2
          · exact Or.inl (by
              rw [List.flatMap_cons]
              exact List.mem_append.mpr (Or.inr h2))
          · exact Or.inr h2

theorem mem_allSessionIds_create (st : AgentServiceState) (u : String)
    (mode : Bool) (s : Nat)
    (hs : s ∈ allSessionIds (create_talk_session st u mode).2) :
    s ∈ allSessionIds st ∨ s = st.nextUuid := by
  unfold create_talk_session allSessionIds at hs
  unfold allSessionIds
  exact mem_flatMap_updateUserSessions st.sessions u _ s hs

theorem sessionIdsBound_create (st : AgentServiceState) (u : String)
    (mode : Bool) (h : sessionIdsBound st) :
    sessionIdsBound (create_talk_session st u mode).2 := by
  intro s hs
  have hnext : (create_talk_session st u mode).2.nextUuid = st.nextUuid + 1 := rfl
  rw [hnext]
  rcases mem_allSessionIds_create st u mode s hs with h1 | h1
  · exact Nat.lt_succ_of_lt (h s h1)
  · rw [h1]
    exact Nat.lt_succ_self _

theorem producer_loop_nodup :
    ∀ (cmds : List SvcCommand) (ps : ProducerState),
      ps.activeTasks.Nodup → (producer_loop ps cmds).activeTasks.Nodup := by
  intro cmds
  induction cmds with
  | nil => intro ps h; simpa [producer_loop] using h
  | cons c rest ih =>
      intro ps h
      cases c with
      | terminate => simpa [producer_loop] using h
      | createAdkSession sid uid m =>
          have hstep : (producerStep ps (SvcCommand.createAdkSession sid uid m)).activeTasks
              = ps.activeTasks := rfl
          have := ih (producerStep ps (SvcCommand.createAdkSession sid uid m))
            (by rw [hstep]; exact h)
          simpa [producer_loop] using this
      | startSessionTask sid uid m =>
          have hred : producer_loop ps (SvcCommand.startSessionTask sid uid m :: rest)
              = producer_loop
                  (producerStep ps (SvcCommand.startSessionTask sid uid m)) rest := rfl
          rw [hred]
          by_cases hc : ps.activeTasks.contains sid
          · have hstep : producerStep ps (SvcCommand.startSessionTask sid uid m) = ps := by
              show (if ps.activeTasks.contains sid then ps else _) = ps
              rw [if_pos hc]
            rw [hstep]
            exact ih ps h
          · have hstep : producerStep ps (SvcCommand.startSessionTask sid uid m)
                = { ps with activeTasks := ps.activeTasks ++ [sid],
                            startedTasks := ps.startedTasks ++ [sid] } := by
              show (if ps.activeTasks.contains sid then ps else _) = _
              rw [if_neg hc]
            have hmem : sid ∉ ps.activeTasks := by
              intro hm
              exact hc (List.elem_iff.mpr hm)
            have hnodup : (ps.activeTasks ++ [sid]).Nodup := by
              rw [List.nodup_append]
              refine ⟨h, List.nodup_singleton sid, ?_⟩
              intro a ha hb
              simp at hb
              rw [hb] at ha
              exact hmem ha
            rw [hstep]
            exact ih _ hnodup

theorem add_succ_shift (t i : Nat) : t + (i + 1) = (t + 1) + i := by omega

theorem waitForPortAux_iff (f : Nat → Bool) :
    ∀ fuel t, waitForPortAux f fuel t = true
      ↔ ∃ i, i < fuel ∧ f (t + i) = true := by
  intro fuel
  induction fuel with
  | zero => intro t; simp [waitForPortAux]
  | succ n ih =>
      intro t
      constructor
      · intro h
        unfold waitForPortAux at h
        by_cases hf : f t
        · exact ⟨0, Nat.succ_pos n, by rw [Nat.add_zero]; exact hf⟩
        · rw [if_neg hf] at h
          obtain ⟨i, hi, hfi⟩ := (ih (t + 1)).mp h
          refine ⟨i + 1, Nat.succ_lt_succ hi, ?_⟩
          rw [add_succ_shift]
          exact hfi
      · rintro ⟨i, hi, hfi⟩
        unfold waitForPortAux
        by_cases hf : f t
        · rw [if_pos hf]
        · rw [if_neg hf]
          apply (ih (t + 1)).mpr
          cases i with
          | zero =>
              rw [Nat.add_zero] at hfi
              exact absurd hfi hf
          | succ i2 =>
              refine ⟨i2, Nat.lt_of_succ_lt_succ hi, ?_⟩
              rw [← add_succ_shift]
              exact hfi

/-! ## Claim theorems -/

/-- Claim C1: with is_agent_mode true, build_agent returns a LoopAgent
named orchestrator whose sub-agents are exactly the worker remip_agent
followed by the mentor agent and whose iteration cap equals the
max_iterations argument; the mentor holds the exit_loop tool plus an ask
tool delegating to exit_loop; the (spec-modelled) loop runs worker then
mentor repeatedly until the mentor signals exit or the cap is reached;
with is_agent_mode false, build_agent returns the bare worker agent. -/
theorem build_agent_spec (maxIterations thinkingBudget : Nat) :
    build_agent true maxIterations thinkingBudget
      = AgentT.loopAgent "orchestrator"
          [AgentT.llm (remip_agent thinkingBudget), AgentT.llm mentor_agent]
          maxIterations
    ∧ mentor_agent.tools = [ATool.exitLoop, ATool.ask]
    ∧ (∀ ctx : ToolCtx, ask ctx = exit_loop ctx ∧ (exit_loop ctx).escalate = true)
    ∧ build_agent false maxIterations thinkingBudget
        = AgentT.llm (remip_agent thinkingBudget)
    ∧ (∀ mentorExits : Nat → Bool,
        loopAgentIterations maxIterations mentorExits ≤ maxIterations)
    ∧ (∀ mentorExits : Nat → Bool,
        loopAgentIterations maxIterations mentorExits
          = match firstExitBelow mentorExits maxIterations 0 with
            | some j => j + 1
            | none => maxIterations) := by
  refine ⟨rfl, rfl, fun ctx => ⟨rfl, rfl⟩, rfl, ?_, ?_⟩
  · intro mentorExits
    exact loopIterAux_le mentorExits maxIterations 0
  · intro mentorExits
    have h := loopIterAux_eq_firstExit mentorExits maxIterations 0
    simpa [loopAgentIterations] using h

/-- Claim C4: once the StreamWorker interrupt trigger is observed at
event k (the interrupt flag set via interrupt(), or the current stream
id superseded by start_stream), the stream task closes the run_async
generator (at least one aclose call), emits the per-event items only for
the events before k plus at most the status item of event k, emits no
chunk item from event k on, and ends its outputs for the stream with the
interrupted status followed by the (interrupted, stream_id, None)
item. -/
theorem stream_task_interrupt_spec (sid k : Nat) (events : List WEvent)
    (raisesAfter hasPrevious : Bool) (intr : Nat → Bool) (curId : Nat → Nat)
    (hk : k < events.length)
    (htrig : intr k = true ∨ curId k ≠ sid)
    (hbefore : ∀ i, i < k → intr i = false ∧ curId i = sid) :
    (stream_task sid events raisesAfter intr curId hasPrevious).outs
      = streamPre sid hasPrevious
        ++ ((events.take k).flatMap
              (fun e => statusOut sid e ++ streamEventOutputs sid e)
            ++ statusOut sid (events.getD k wDefault))
        ++ [OutItem.status sid "interrupted", OutItem.interrupted sid]
    ∧ 1 ≤ (stream_task sid events raisesAfter intr curId hasPrevious).acloseCalls
    ∧ (∀ x ∈ statusOut sid (events.getD k wDefault)
            ++ [OutItem.status sid "interrupted", OutItem.interrupted sid],
        ∀ kind text, x ≠ OutItem.chunk sid kind text) := by
  have htrig0 : intr (0 + k) = true ∨ curId (0 + k) ≠ sid := by
    rw [Nat.zero_add]; exact htrig
  have hbefore0 : ∀ i, i < k → intr (0 + i) = false ∧ curId (0 + i) = sid := by
    intro i hi; rw [Nat.zero_add]; exact hbefore i hi
  have hloop := streamLoop_interrupt sid intr curId events k 0 hk htrig0 hbefore0
  refine ⟨?_, ?_, ?_⟩
  · simp [stream_task, hloop]
  · simp [stream_task, hloop]
  · intro x hx kind text
    rcases List.mem_append.mp hx with hx1 | hx2
    · obtain ⟨s, rfl⟩ := statusOut_mem sid (events.getD k wDefault) x hx1
      intro hcontra
      exact OutItem.noConfusion hcontra
    · simp only [List.mem_cons, List.mem_singleton] at hx2
      rcases hx2 with h | h | h
      · subst h; intro hcontra; exact OutItem.noConfusion hcontra
      · subst h; intro hcontra; exact OutItem.noConfusion hcontra
      · simp at h

/-- Witness for C4: the interrupt behavior at a concrete stream: stream
id 7, two events, the interrupt flag observed set from event 1 on. -/
theorem stream_task_interrupt_witness :
    1 < ([wChunkEvent, wPlainEvent] : List WEvent).length
    ∧ (stream_task 7 [wChunkEvent, wPlainEvent] false c4Intr c4CurId false).outs
        = streamPre 7 false
          ++ ((([wChunkEvent, wPlainEvent].take 1)).flatMap
                (fun e => statusOut 7 e ++ streamEventOutputs 7 e)
              ++ statusOut 7 ([wChunkEvent, wPlainEvent].getD 1 wDefault))
          ++ [OutItem.status 7 "interrupted", OutItem.interrupted 7] := by
  refine ⟨by decide, ?_⟩
  exact (stream_task_interrupt_spec 7 1 [wChunkEvent, wPlainEvent] false false
    c4Intr c4CurId (by decide) (Or.inl rfl)
    (by intro i hi; interval_cases i; exact ⟨rfl, rfl⟩)).1

/-- Claim C2: consuming through the queue bridge is equivalent to
iterating the async source directly: with no stop requested the
consumer of AsyncIteratorBridge.run yields exactly the produced items in
FIFO order; when the producer first observes the stop request at
iteration k it forwards exactly the items produced before that point, in
order; and AgentService.stream_new_responses yields exactly the items
its session output queue holds before the sentinel, in FIFO order,
terminating at the sentinel. -/
theorem bridge_fifo_equivalence (α : Type) :
    (∀ items : List α, bridgeRun items (fun _ => false) none = some items)
    ∧ (∀ (items : List α) (k : Nat),
        bridgeRun items (fun i => decide (k ≤ i)) none = some (items.take k))
    ∧ (∀ (produced : List α) (rest : List (QItem α)),
        stream_new_responses (produced.map QItem.item ++ QItem.sentinel :: rest)
          = some produced) := by
  refine ⟨?_, ?_, ?_⟩
  · intro items
    have h := produceLoop_falseCheck items 0
    simp only [bridgeRun, produce, iterResults, h]
    simpa using bridgeRunConsume_items_sentinel items []
  · intro items k
    have h := produceLoop_threshold k items 0
    simp only [bridgeRun, produce, iterResults, h, Nat.sub_zero]
    simpa using bridgeRunConsume_items_sentinel (items.take k) []
  · intro produced rest
    exact stream_new_responses_items_sentinel produced rest

/-- Claim C3: the bridge producer always puts the sentinel last, whatever
the stop schedule and whether or not the iterator raises, so its
consumer always terminates; but the per-session agent task of
AgentService does not share this property: cancelled while awaiting the
first message, its finally block trips over the unbound local
async_iterable (UnboundLocalError) before reaching the sentinel put, and
the consumer of the then sentinel-free queue blocks forever. -/
theorem produce_sentinel_and_session_task_unbound_local :
    (∀ (items : List Nat) (stopCheck : Nat → Bool) (raiseAt : Option Nat),
        (produce items stopCheck raiseAt).getLast? = some QItem.sentinel
        ∧ (bridgeRun items stopCheck raiseAt).isSome = true)
    ∧ run_agent_task_per_session ([] : List (List Nat)) 0
        = Except.error "UnboundLocalError: async_iterable"
    ∧ stream_new_responses ([] : List (QItem Nat)) = none := by
  refine ⟨?_, rfl, rfl⟩
  intro items stopCheck raiseAt
  constructor
  · exact getLast?_append_singleton _ _
  · exact bridgeRunConsume_isSome_of_sentinel _

/-- Claim C8: create_talk_session returns a fresh session id (one not
yet registered, with the freshness invariant preserved), registers it
under the user and gives it an output queue and a message queue, and
appends the create_adk_session command strictly before the
START_SESSION_TASK command for that session; the producer loop processes
the command queue head first (FIFO), keeps the active tasks free of
duplicates (at most one agent task per session id), and ignores a START
command for a session that already has an active task. -/
theorem create_talk_session_spec (st : AgentServiceState) (userId : String)
    (mode : Bool) (hbound : sessionIdsBound st) :
    (create_talk_session st userId mode).1 ∉ allSessionIds st
    ∧ sessionIdsBound (create_talk_session st userId mode).2
    ∧ userSessionIds (create_talk_session st userId mode).2 userId
        = userSessionIds st userId ++ [(create_talk_session st userId mode).1]
    ∧ (create_talk_session st userId mode).2.outputQueues
        = st.outputQueues ++ [(create_talk_session st userId mode).1]
    ∧ (create_talk_session st userId mode).2.messageQueues
        = st.messageQueues ++ [(create_talk_session st userId mode).1]
    ∧ (create_talk_session st userId mode).2.commandQ
        = st.commandQ ++
            [SvcCommand.createAdkSession (create_talk_session st userId mode).1
               userId mode,
             SvcCommand.startSessionTask (create_talk_session st userId mode).1
               userId mode]
    ∧ (∀ (ps : ProducerState) (c : SvcCommand) (rest : List SvcCommand),
        c ≠ SvcCommand.terminate →
        producer_loop ps (c :: rest) = producer_loop (producerStep ps c) rest)
    ∧ (∀ ps : ProducerState, ps.activeTasks.Nodup →
        ∀ cmds, (producer_loop ps cmds).activeTasks.Nodup)
    ∧ (∀ (ps : ProducerState) (sid : Nat) (u : String) (m : Bool),
        ps.activeTasks.contains sid = true →
        producerStep ps (SvcCommand.startSessionTask sid u m) = ps) := by
  refine ⟨?_, sessionIdsBound_create st userId mode hbound,
    userSessionIds_create st userId mode, rfl, rfl, rfl, ?_, ?_, ?_⟩
  · intro hmem
    exact Nat.lt_irrefl st.nextUuid (hbound st.nextUuid hmem)
  · intro ps c rest hc
    cases c with
    | createAdkSession sid u m => rfl
    | startSessionTask sid u m => rfl
    | terminate => exact absurd rfl hc
  · intro ps h cmds
    exact producer_loop_nodup cmds ps h
  · intro ps sid u m hc
    show (if ps.activeTasks.contains sid then ps else _) = ps
    rw [if_pos hc]

/-- Witness for C8: the freshness conjunct at the concrete one-user
state. -/
theorem create_talk_session_witness :
    sessionIdsBound c5State
    ∧ (create_talk_session c5State "bob" true).1 ∉ allSessionIds c5State := by
  have hb : sessionIdsBound c5State := by
    intro s hs
    simp [allSessionIds, c5State] at hs
    simp [hs, c5State]
  exact ⟨hb, (create_talk_session_spec c5State "bob" true hb).1⟩

/-- Claim C5: list_talk_sessions returns exactly the session ids
registered for the user (the empty list for an unknown user) and leaves
the service state unchanged; the code after its return statement never
runs, so the add_message definition nested there is never bound and
attribute lookup of add_message on an AgentService instance fails. -/
theorem list_talk_sessions_spec (st : AgentServiceState) (userId : String) :
    (∀ m, st.sessions.find? (fun kv => kv.1 == userId) = some m →
        (list_talk_sessions st userId).1 = m.2.map (fun sv => sv.1))
    ∧ (st.sessions.find? (fun kv => kv.1 == userId) = none →
        (list_talk_sessions st userId).1 = [])
    ∧ (list_talk_sessions st userId).2 = st
    ∧ agentServiceGetattr "add_message" = none := by
  refine ⟨?_, ?_, rfl, rfl⟩
  · intro m hm
    simp [list_talk_sessions, userSessionIds, hm]
  · intro hm
    simp [list_talk_sessions, userSessionIds, hm]

/-- Witness for C5: the concrete service state with user alice owning
session 0. -/
theorem list_talk_sessions_witness :
    c5State.sessions.find? (fun kv => kv.1 == "alice")
      = some ("alice", [(0, ⟨0, "alice", true⟩)])
    ∧ (list_talk_sessions c5State "alice").1 = [0] := by
  refine ⟨rfl, ?_⟩
  exact (list_talk_sessions_spec c5State "alice").1
    ("alice", [(0, ⟨0, "alice", true⟩)]) rfl

/-- Claim C6: events_to_messages does not return on every finite event
sequence: on an id-less non-partial model event followed by an id-less
partial model event it raises KeyError, because last_none_key still
names the already popped key (contradicting its own docstring, which
promises that remaining partials are preserved).  On sequences that
avoid that pattern the claimed behavior holds, as on the merge example
from the repository test suite, evaluated in the second conjunct. -/
theorem events_to_messages_keyerror :
    events_to_messages c6FailingEvents
      = Except.error ("KeyError: " ++ noneKey 0)
    ∧ events_to_messages
        [ ⟨some ⟨some "user", [⟨some "Hello"⟩]⟩, none, false⟩,
          ⟨some ⟨some "model", [⟨some "Part "⟩]⟩, some "inv-1", true⟩,
          ⟨some ⟨some "model", [⟨some "chunk"⟩]⟩, some "inv-1", true⟩,
          ⟨some ⟨some "model", [⟨some "!"⟩]⟩, some "inv-1", false⟩ ]
      = Except.ok [("user", "Hello"), ("assistant", "Part chunk!")] :=
  ⟨rfl, rfl⟩

/-- Claim C7: get_historical_events returns the event list stored for
the session when the session service has one, and the empty list when
the session service returns None. -/
theorem get_historical_events_spec (α : Type) (svc : SessionService α)
    (userId sessionId : String) :
    (∀ events, get_session svc APP_NAME userId sessionId = some events →
        get_historical_events svc userId sessionId = events)
    ∧ (get_session svc APP_NAME userId sessionId = none →
        get_historical_events svc userId sessionId = []) := by
  constructor
  · intro events h; simp [get_historical_events, h]
  · intro h; simp [get_historical_events, h]

/-- Witness for C7: a stored session is returned, a missing one gives
the empty list. -/
theorem get_historical_events_witness :
    get_session c7Svc APP_NAME "alice" "s1" = some [10, 11]
    ∧ get_historical_events c7Svc "alice" "s1" = [10, 11]
    ∧ get_session c7Svc APP_NAME "bob" "s1" = none
    ∧ get_historical_events c7Svc "bob" "s1" = [] := by
  refine ⟨rfl, ?_, rfl, ?_⟩
  · exact (get_historical_events_spec Nat c7Svc "alice" "s1").1 [10, 11] rfl
  · exact (get_historical_events_spec Nat c7Svc "bob" "s1").2 rfl

/-- Claim C9: ensure_http_server returns its port exactly when the
spawned npx process starts listening within the 10 second poll window
and raises RuntimeError otherwise; start_remip_mcp returns the
configured MCP_PORT = 3333 unconditionally, and get_mcp_toolset points
its HTTP endpoint at that port. -/
theorem mcp_server_spec (listening : Nat → Bool) (port : Nat) :
    (ensure_http_server listening port = Except.ok port ↔
        ∃ t, t < timeoutTicks ∧ listening t = true)
    ∧ ((¬ ∃ t, t < timeoutTicks ∧ listening t = true) →
        ensure_http_server listening port
          = Except.error
              ("RuntimeError: MCP HTTP server failed to start on port "
                ++ toString port))
    ∧ start_remip_mcp listening = MCP_PORT
    ∧ MCP_PORT = 3333
    ∧ mcpToolsetUrl (start_remip_mcp listening)
        = "http://localhost:3333/mcp/" := by
  have hiff : wait_for_port listening timeoutTicks = true
      ↔ ∃ t, t < timeoutTicks ∧ listening t = true := by
    unfold wait_for_port
    constructor
    · intro h
      obtain ⟨i, hi, hfi⟩ := (waitForPortAux_iff listening timeoutTicks 0).mp h
      refine ⟨i, hi, ?_⟩
      rw [Nat.zero_add] at hfi
      exact hfi
    · rintro ⟨t, ht, hft⟩
      refine (waitForPortAux_iff listening timeoutTicks 0).mpr ⟨t, ht, ?_⟩
      rw [Nat.zero_add]
      exact hft
  refine ⟨?_, ?_, rfl, rfl, ?_⟩
  case refine_3 =>
    rw [show start_remip_mcp listening = MCP_PORT from rfl]
    decide
  · constructor
    · intro h
      by_cases hw : wait_for_port listening timeoutTicks
      · exact hiff.mp hw
      · unfold ensure_http_server at h
        rw [if_neg hw] at h
        exact Except.noConfusion h
    · intro h
      unfold ensure_http_server
      rw [if_pos (hiff.mpr h)]
  · intro h
    unfold ensure_http_server
    have hw : ¬ wait_for_port listening timeoutTicks = true := fun hw =>
      h (hiff.mp hw)
    rw [if_neg hw]

/-- Witness for C9: a port listening from poll 2 on gives ok, a port
that never listens gives the RuntimeError. -/
theorem mcp_server_witness :
    ensure_http_server lateListening 3333 = Except.ok 3333
    ∧ ensure_http_server neverListening 3333
        = Except.error
            "RuntimeError: MCP HTTP server failed to start on port 3333" := by
  constructor
  · exact (mcp_server_spec lateListening 3333).1.mpr ⟨2, by decide, rfl⟩
  · have h : ¬ ∃ t, t < timeoutTicks ∧ neverListening t = true := by
      rintro ⟨t, ht, hf⟩
      exact Bool.noConfusion hf
    exact (mcp_server_spec neverListening 3333).2.1 h

/-- Claim C10: every track_tool_calling invocation appends exactly one
record to the tools_used state (starting from the empty list when the
key is absent), with each argument value kept verbatim when its string
form has at most 128 characters and otherwise truncated to the first 128
characters plus an ellipsis, and with success false exactly when the
response is a Mapping whose isError value is truthy, or a Mapping
without isError whose error or error_message value is truthy, or a
non-Mapping non-None object with a truthy isError attribute; a None
response records success true. -/
theorem track_tool_calling_spec (agentName toolName : String)
    (args : List (String × String)) (toolsUsed : Option (List ToolRecord))
    (resp : ToolResp) :
    track_tool_calling agentName toolName args toolsUsed resp
      = toolsUsed.getD [] ++
          [{ agent := agentName
             tool := toolName
             args := args.map (fun kv => (kv.1, truncateValue kv.2))
             success := successOf resp }]
    ∧ (∀ v : String,
        truncateValue v = if v.length > 128 then v.take 128 ++ "..." else v)
    ∧ (successOf resp = false ↔
        (∃ m, resp = ToolResp.mapping m ∧ mcontains m "isError" = true
            ∧ truthy (mgetD m "isError" (PyLite.pyBool false)) = true)
        ∨ (∃ m, resp = ToolResp.mapping m ∧ mcontains m "isError" = false
            ∧ (truthy (mgetD m "error" PyLite.pyNone) = true
               ∨ truthy (mgetD m "error_message" PyLite.pyNone) = true))
        ∨ (∃ a, resp = ToolResp.obj a
            ∧ truthy (a.getD (PyLite.pyBool false)) = true))
    ∧ successOf ToolResp.noneResp = true := by
  refine ⟨rfl, fun v => rfl, ?_, rfl⟩
  cases resp with
  | noneResp => simp [successOf]
  | mapping m =>
      by_cases h1 : mcontains m "isError"
      · by_cases h2 : truthy (mgetD m "isError" (PyLite.pyBool false))
        · simp [successOf, h1, h2]
        · simp [successOf, h1, h2]
      · by_cases h3 : truthy (mgetD m "error" PyLite.pyNone)
        · simp [successOf, h1, h3]
        · by_cases h4 : truthy (mgetD m "error_message" PyLite.pyNone)
          · simp [successOf, h1, h3, h4]
          · simp [successOf, h1, h3, h4]
  | obj a =>
      by_cases h5 : truthy (a.getD (PyLite.pyBool false))
      · simp [successOf, h5]
      · simp [successOf, h5]

/-- Witness for C10: a concrete call on an empty state with a Mapping
response carrying a truthy isError records one failed call. -/
theorem track_tool_calling_witness :
    track_tool_calling "remip_agent" "solve_model" [("model", "m1")] none
        (ToolResp.mapping [("isError", PyLite.pyBool true)])
      = [{ agent := "remip_agent"
           tool := "solve_model"
           args := [("model", "m1")]
           success := false }] := by
  exact (track_tool_calling_spec "remip_agent" "solve_model" [("model", "m1")]
    none (ToolResp.mapping [("isError", PyLite.pyBool true)])).1

end Remip
